import Mathlib

/-!
Verification of the aos_common resource-monitoring core (package resourcemonitor).

The development shallowly embeds:
* the alert hysteresis detector (alert processor) driving raise/continue/fall
  callbacks,
* the orchestrator lifecycle operations of src/resourcemonitor/resourcemonitor.go
  (New, StartInstanceMonitor, StopInstanceMonitor, createInstanceMonitoring),
* the per-tick system sampling getCurrentSystemData with its error handling,
* the averaging window behind GetAverageMonitoring.

Timestamps are modelled as natural numbers (a fixed time unit); Go durations
become naturals in the same unit.  Go's (value, error) returns become Except /
Option values; where a Go helper returns the zero value together with an error,
the embedding records that explicitly.
-/

namespace AosResourceMonitor

/-! ### Alert processor

Modelled from the spec: the alert processor implementation (createAlertProcessor
and checkAlertDetection of alertprocessor.go) is not among the sources; only its
reference test (resourcemonitor_internal_test.go, TestAlertProcessor) and the
spec describe it.  The model follows spec section 4.1 for the raise path (a
candidate crossing at or above the high bound must persist for the rule timeout,
measured from the first crossing tick, before one raise fires with the
confirmation-time value and timestamp; dropping below the high bound discards
the candidate silently) and is calibrated against the reference scenario of
spec section 8 for the raised-state path: a continue heartbeat fires when a full
timeout has elapsed since the last raise or continue event, and a fall fires
once the value has stayed below the low bound for a full timeout, measured from
the first below-low tick.  Go's zero-time sentinel for "no pending threshold
time" is modelled as an Option. -/

structure AlertRuleParam where
  timeout : Nat
  low : Nat
  high : Nat
  deriving DecidableEq, Repr

inductive AlertStatus where
  | raise
  | cont
  | fall
  deriving DecidableEq, Repr

structure AlertEvent where
  time : Nat
  value : Nat
  status : AlertStatus
  deriving DecidableEq, Repr

structure AlertProcessor where
  rule : AlertRuleParam
  alertCondition : Bool
  highThresholdTime : Option Nat
  lowThresholdTime : Option Nat
  deriving DecidableEq, Repr

def createAlertProcessor (rule : AlertRuleParam) : AlertProcessor :=
  { rule := rule, alertCondition := false
    highThresholdTime := none, lowThresholdTime := none }

/-- Normal-state handler: track the first tick at which the value crossed the
high bound; once the crossing has persisted for the rule timeout, confirm the
alert with the current value and timestamp.  A value below the high bound
discards any pending candidate without a callback. -/
def handleHighThreshold (a : AlertProcessor) (t v : Nat) :
    AlertProcessor × List AlertEvent :=
  if a.rule.high ≤ v then
    if a.rule.timeout ≤ t - a.highThresholdTime.getD t then
      ({ a with alertCondition := true, highThresholdTime := some t },
        [⟨t, v, .raise⟩])
    else
      ({ a with highThresholdTime := some (a.highThresholdTime.getD t) }, [])
  else
    ({ a with highThresholdTime := none }, [])

/-- Raised-state handler: track the first tick at which the value dropped below
the low bound; once below-low has persisted for the rule timeout, emit one fall
and return to normal.  Otherwise, when a full timeout has elapsed since the
last raise or continue event (stored in highThresholdTime), emit one continue
heartbeat carrying the current value and timestamp. -/
def handleLowThreshold (a : AlertProcessor) (t v : Nat) :
    AlertProcessor × List AlertEvent :=
  if v < a.rule.low then
    if a.rule.timeout ≤ t - a.lowThresholdTime.getD t then
      ({ a with alertCondition := false
                highThresholdTime := none, lowThresholdTime := none },
        [⟨t, v, .fall⟩])
    else if a.rule.timeout ≤ t - a.highThresholdTime.getD 0 then
      ({ a with lowThresholdTime := some (a.lowThresholdTime.getD t)
                highThresholdTime := some t },
        [⟨t, v, .cont⟩])
    else
      ({ a with lowThresholdTime := some (a.lowThresholdTime.getD t) }, [])
  else
    if a.rule.timeout ≤ t - a.highThresholdTime.getD 0 then
      ({ a with lowThresholdTime := none, highThresholdTime := some t },
        [⟨t, v, .cont⟩])
    else
      ({ a with lowThresholdTime := none }, [])

def checkAlertDetection (a : AlertProcessor) (t v : Nat) :
    AlertProcessor × List AlertEvent :=
  if a.alertCondition then handleLowThreshold a t v else handleHighThreshold a t v

/-- One timestamped check handed to the processor by the poll loop. -/
structure Check where
  time : Nat
  value : Nat
  deriving DecidableEq, Repr

def runChecks (a : AlertProcessor) : List Check → AlertProcessor × List AlertEvent
  | [] => (a, [])
  | c :: cs =>
      let step := checkAlertDetection a c.time c.value
      let rest := runChecks step.1 cs
      (rest.1, step.2 ++ rest.2)

/-! The reference scenario of spec section 8 / TestAlertProcessor
(resourcemonitor_internal_test.go lines 129-180): rule low 80, high 90,
timeout 3 seconds, one check per second starting at t = 0. -/

def refRule : AlertRuleParam := { timeout := 3, low := 80, high := 90 }

def refValues : List Nat :=
  [50, 91, 79, 92, 93, 94, 95, 94, 79, 91, 92, 93, 94, 32,
   91, 92, 93, 94, 95, 96, 85, 79, 77, 76, 75, 74, 73, 72]

def refChecks : List Check :=
  ((List.range refValues.length).zip refValues).map fun p => ⟨p.1, p.2⟩

def refRun : AlertProcessor × List AlertEvent :=
  runChecks (createAlertProcessor refRule) refChecks

/-- State of the reference processor after the first n checks. -/
def refStateAfter (n : Nat) : AlertProcessor :=
  (runChecks (createAlertProcessor refRule) (refChecks.take n)).1

/-- C2: for the rule (low 80, high 90, timeout 3 s), checking once per second
starting at t = 0 on the reference value sequence, the alert processor invokes
exactly: raise at t = 6 with value 95, continue at t = 9 (91), continue at
t = 12 (94), continue at t = 15 (92), continue at t = 18 (95), continue at
t = 21 (79), and fall at t = 24 (75), in this order. -/
theorem C2_thm :
    refRun.2 =
      [⟨6, 95, .raise⟩, ⟨9, 91, .cont⟩, ⟨12, 94, .cont⟩, ⟨15, 92, .cont⟩,
       ⟨18, 95, .cont⟩, ⟨21, 79, .cont⟩, ⟨24, 75, .fall⟩] := by
  decide

/-- Decides whether, at a raised-state check with time t and value v, the fall
condition holds: the value is below the low bound and has been so for a full
timeout, measured from the recorded first below-low tick. -/
def fallTriggered (a : AlertProcessor) (t v : Nat) : Bool :=
  decide (v < a.rule.low) && decide (a.rule.timeout ≤ t - a.lowThresholdTime.getD t)

/-- C3 counterexample: at the reference scenario's check tick t = 7 the
processor is still in the raised state and the current value 94 is at or above
the low bound 80, yet the check invokes no callback at all at that tick, so no
continue callback is invoked at that very tick. -/
theorem C3_counterexample :
    (refStateAfter 7).alertCondition = true ∧
    refChecks[7]? = some ⟨7, 94⟩ ∧
    refRule.low ≤ 94 ∧
    (checkAlertDetection (refStateAfter 7) 7 94).2 = [] := by
  decide

/-- C3 amended: after a raise, a check tick in the raised state invokes exactly
one continue callback, carrying the current value and timestamp, if and only if
the fall condition does not hold at that tick and at least the rule's timeout
has elapsed since the last raise or continue callback (whose time the processor
stores in highThresholdTime); a continue keeps the processor raised and resets
that heartbeat reference time to the current tick. -/
theorem C3_amended_thm :
    ∀ (a : AlertProcessor) (t v : Nat), a.alertCondition = true →
      ((checkAlertDetection a t v).2 = [⟨t, v, .cont⟩] ↔
        (fallTriggered a t v = false ∧
          a.rule.timeout ≤ t - a.highThresholdTime.getD 0)) ∧
      ((checkAlertDetection a t v).2 = [⟨t, v, .cont⟩] →
        (checkAlertDetection a t v).1.alertCondition = true ∧
        (checkAlertDetection a t v).1.highThresholdTime = some t) := by
  intro a t v h
  simp only [checkAlertDetection, h, if_true, handleLowThreshold, fallTriggered]
  by_cases hlow : v < a.rule.low <;>
    simp only [hlow, if_true, if_false, decide_eq_true_eq] <;>
    simp [hlow] <;>
    split_ifs <;>
    simp_all

/-- C3 witness: a concrete raised state (raise happened at time 6) checked at
time 9 with value 91 emits exactly one continue callback. -/
theorem C3_witness :
    (checkAlertDetection
      { rule := { timeout := 3, low := 80, high := 90 }, alertCondition := true
        highThresholdTime := some 6, lowThresholdTime := none } 9 91).2 =
      [⟨9, 91, .cont⟩] :=
  (C3_amended_thm
    { rule := { timeout := 3, low := 80, high := 90 }, alertCondition := true
      highThresholdTime := some 6, lowThresholdTime := none } 9 91 rfl).1.mpr
    (by decide)

theorem checkAlertDetection_rule (a : AlertProcessor) (t v : Nat) :
    (checkAlertDetection a t v).1.rule = a.rule := by
  unfold checkAlertDetection handleLowThreshold handleHighThreshold
  by_cases h : a.alertCondition <;> simp only [h, if_true, if_false] <;>
    by_cases h2 : v < a.rule.low <;> simp only [h2, if_true, if_false] <;>
    split_ifs <;> rfl

theorem runChecks_first_rule (a : AlertProcessor) (cs : List Check) :
    (runChecks a cs).1.rule = a.rule := by
  induction cs generalizing a with
  | nil => rfl
  | cons c cs ih =>
      simp only [runChecks]
      rw [ih, checkAlertDetection_rule]

theorem runChecks_snoc (a : AlertProcessor) (p : List Check) (c : Check) :
    runChecks a (p ++ [c]) =
      ((checkAlertDetection (runChecks a p).1 c.time c.value).1,
        (runChecks a p).2 ++ (checkAlertDetection (runChecks a p).1 c.time c.value).2) := by
  induction p generalizing a with
  | nil => simp [runChecks]
  | cons x xs ih => simp [runChecks, ih, List.append_assoc]

/-- Invariant tying the raised-state below-low tracking time to the check
history: in the normal state no below-low time is pending, and in the raised
state a recorded below-low time is the timestamp of an earlier check since
which every check value (that one included) has been below the low bound. -/
def LowInv (r : AlertRuleParam) (p : List Check) (a : AlertProcessor) : Prop :=
  (a.alertCondition = false → a.lowThresholdTime = none) ∧
  (∀ τ, a.alertCondition = true → a.lowThresholdTime = some τ →
    ∃ j, ∃ hj : j < p.length, (p.get ⟨j, hj⟩).time = τ ∧
      ∀ k, j ≤ k → ∀ hk : k < p.length, (p.get ⟨k, hk⟩).value < r.low)

theorem lowInv_init (r : AlertRuleParam) : LowInv r [] (createAlertProcessor r) := by
  constructor
  · intro; rfl
  · intro τ _ h
    simp [createAlertProcessor] at h

/-- Extending a recorded below-low dwell by one more below-low check. -/
theorem lowDwell_extend (r : AlertRuleParam) (p : List Check) (a : AlertProcessor)
    (c : Check) (hr : a.rule = r) (hc : a.alertCondition = true)
    (hlow : c.value < a.rule.low)
    (hinv : ∀ τ, a.alertCondition = true → a.lowThresholdTime = some τ →
      ∃ j, ∃ hj : j < p.length, (p.get ⟨j, hj⟩).time = τ ∧
        ∀ k, j ≤ k → ∀ hk : k < p.length, (p.get ⟨k, hk⟩).value < r.low) :
    ∃ j, ∃ hj : j < (p ++ [c]).length,
      ((p ++ [c]).get ⟨j, hj⟩).time = a.lowThresholdTime.getD c.time ∧
      ∀ k, j ≤ k → ∀ hk : k < (p ++ [c]).length,
        ((p ++ [c]).get ⟨k, hk⟩).value < r.low := by
  rcases hlt : a.lowThresholdTime with _ | τ0
  · refine ⟨p.length, by simp, ?_, ?_⟩
    · simp [List.get_eq_getElem]
    · intro k hk1 hk2
      have hk : k = p.length := by
        simp only [List.length_append, List.length_cons, List.length_nil] at hk2
        omega
      subst hk
      simp only [List.get_eq_getElem, List.getElem_concat_length]
      rw [← hr]
      exact hlow
  · obtain ⟨j, hj, hjt, hjv⟩ := hinv τ0 hc hlt
    have hj' : j < (p ++ [c]).length := by simp; omega
    refine ⟨j, hj', ?_, ?_⟩
    · simp only [Option.getD_some, List.get_eq_getElem]
      rw [List.getElem_append_left hj]
      simpa [List.get_eq_getElem] using hjt
    · intro k hk1 hk2
      simp only [List.length_append, List.length_cons, List.length_nil] at hk2
      by_cases hkp : k < p.length
      · simp only [List.get_eq_getElem]
        rw [List.getElem_append_left hkp]
        simpa [List.get_eq_getElem] using hjv k hk1 hkp
      · have hk : k = p.length := by omega
        subst hk
        simp only [List.get_eq_getElem, List.getElem_concat_length]
        rw [← hr]
        exact hlow

theorem lowInv_step (r : AlertRuleParam) (p : List Check) (a : AlertProcessor)
    (c : Check) (hr : a.rule = r) (h : LowInv r p a) :
    LowInv r (p ++ [c]) (checkAlertDetection a c.time c.value).1 := by
  obtain ⟨hnorm, hinv⟩ := h
  unfold checkAlertDetection
  by_cases hc : a.alertCondition = true
  · rw [if_pos hc]
    unfold handleLowThreshold
    by_cases hlow : c.value < a.rule.low
    · rw [if_pos hlow]
      split_ifs with hfall hcont
      · exact ⟨fun _ => rfl, fun τ hco h2 => by simp at h2⟩
      · refine ⟨fun hfalse => ?_, fun τ hco h2 => ?_⟩
        · simp [hc] at hfalse
        · simp only [Option.some.injEq] at h2
          rw [← h2]
          exact lowDwell_extend r p a c hr hc hlow hinv
      · refine ⟨fun hfalse => ?_, fun τ hco h2 => ?_⟩
        · simp [hc] at hfalse
        · simp only [Option.some.injEq] at h2
          rw [← h2]
          exact lowDwell_extend r p a c hr hc hlow hinv
    · rw [if_neg hlow]
      split_ifs with hcont
      · exact ⟨fun hfalse => by simp [hc] at hfalse, fun τ hco h2 => by simp at h2⟩
      · exact ⟨fun hfalse => by simp [hc] at hfalse, fun τ hco h2 => by simp at h2⟩
  · rw [if_neg hc]
    have hcf : a.alertCondition = false := by
      revert hc
      cases a.alertCondition <;> simp
    have hlownone : a.lowThresholdTime = none := hnorm hcf
    unfold handleHighThreshold
    split_ifs with h1 h2
    · exact ⟨fun hfalse => by simp at hfalse, fun τ hco h2 => by simp [hlownone] at h2⟩
    · exact ⟨fun _ => by simpa using hlownone, fun τ hco h2 => by simp [hcf] at hco⟩
    · exact ⟨fun _ => by simpa using hlownone, fun τ hco h2 => by simp [hcf] at hco⟩

/-- Processor state reached from a fresh processor after a list of checks. -/
def reachedProcessor (r : AlertRuleParam) (p : List Check) : AlertProcessor :=
  (runChecks (createAlertProcessor r) p).1

theorem reachedProcessor_rule (r : AlertRuleParam) (p : List Check) :
    (reachedProcessor r p).rule = r := by
  unfold reachedProcessor
  rw [runChecks_first_rule]
  rfl

theorem lowInv_run (r : AlertRuleParam) (p : List Check) :
    LowInv r p (reachedProcessor r p) := by
  induction p using List.reverseRecOn with
  | nil => exact lowInv_init r
  | append_singleton xs x ih =>
      unfold reachedProcessor
      rw [runChecks_snoc]
      exact lowInv_step r xs (reachedProcessor r xs) x (reachedProcessor_rule r xs) ih

/-- In the raised state, a check emits a fall exactly as the unique event of
the tick, returns the processor to normal, and requires the value to be below
the low bound with the below-low dwell (from the recorded first below-low
tick) having reached the rule timeout. -/
theorem fall_step_char (a : AlertProcessor) (t v : Nat)
    (hc : a.alertCondition = true) (e : AlertEvent)
    (he : e ∈ (checkAlertDetection a t v).2) (hst : e.status = .fall) :
    e = ⟨t, v, .fall⟩ ∧ (checkAlertDetection a t v).2 = [e] ∧
    (checkAlertDetection a t v).1.alertCondition = false ∧
    v < a.rule.low ∧ a.rule.timeout ≤ t - a.lowThresholdTime.getD t := by
  unfold checkAlertDetection at he ⊢
  rw [if_pos hc] at he ⊢
  unfold handleLowThreshold at he ⊢
  split_ifs at he ⊢ <;> simp_all

/-- C4 counterexample: in the reference scenario the processor is raised at
check tick t = 13 and the value 32 is below the low bound 80, yet that tick
invokes no callback at all: the fall is not immediate on crossing the low
bound. -/
theorem C4_counterexample :
    (refStateAfter 13).alertCondition = true ∧
    refChecks[13]? = some ⟨13, 32⟩ ∧
    32 < refRule.low ∧
    (checkAlertDetection (refStateAfter 13) 13 32).2 = [] := by
  decide

/-- C4 amended: while the processor is raised, a fall callback is invoked only
at a tick whose value has remained below the low bound continuously for at
least the rule's timeout (measured from the first below-low tick of the
current below-low run); the fall is then the unique callback of that tick, it
carries the current value and timestamp, and the processor returns to the
normal state. -/
theorem C4_amended_thm :
    ∀ (r : AlertRuleParam) (p : List Check) (c : Check),
      (reachedProcessor r p).alertCondition = true →
      ∀ e ∈ (checkAlertDetection (reachedProcessor r p) c.time c.value).2,
        e.status = .fall →
        e = ⟨c.time, c.value, .fall⟩ ∧
        (checkAlertDetection (reachedProcessor r p) c.time c.value).2 = [e] ∧
        (checkAlertDetection (reachedProcessor r p) c.time c.value).1.alertCondition = false ∧
        ∃ j, ∃ hj : j < (p ++ [c]).length,
          r.timeout ≤ c.time - ((p ++ [c]).get ⟨j, hj⟩).time ∧
          ∀ k, j ≤ k → ∀ hk : k < (p ++ [c]).length,
            ((p ++ [c]).get ⟨k, hk⟩).value < r.low := by
  intro r p c hc e he hst
  have hr : (reachedProcessor r p).rule = r := reachedProcessor_rule r p
  obtain ⟨h1, h2, h3, h4, h5⟩ :=
    fall_step_char (reachedProcessor r p) c.time c.value hc e he hst
  refine ⟨h1, h2, h3, ?_⟩
  obtain ⟨j, hj, hjt, hjv⟩ :=
    lowDwell_extend r p (reachedProcessor r p) c hr hc h4 (lowInv_run r p).2
  refine ⟨j, hj, ?_, hjv⟩
  rw [hr] at h5
  rw [hjt]
  exact h5

/-- C4 witness: applying the amended fall characterization at the reference
scenario's tick t = 24 (value 75), where the fall fires. -/
theorem C4_witness :
    (checkAlertDetection (reachedProcessor refRule (refChecks.take 24)) 24 75).1.alertCondition
      = false :=
  (C4_amended_thm refRule (refChecks.take 24) ⟨24, 75⟩ (by decide)
    ⟨24, 75, .fall⟩ (by decide) rfl).2.2.1

/-- Invariant tying the normal-state high-crossing tracking time to the check
history: a recorded crossing time is the timestamp of an earlier check since
which every check value (that one included) has been at or above the high
bound. -/
def HighInv (r : AlertRuleParam) (p : List Check) (a : AlertProcessor) : Prop :=
  ∀ τ, a.alertCondition = false → a.highThresholdTime = some τ →
    ∃ j, ∃ hj : j < p.length, (p.get ⟨j, hj⟩).time = τ ∧
      ∀ k, j ≤ k → ∀ hk : k < p.length, r.high ≤ (p.get ⟨k, hk⟩).value

theorem highInv_init (r : AlertRuleParam) : HighInv r [] (createAlertProcessor r) := by
  intro τ _ h
  simp [createAlertProcessor] at h

/-- Extending a recorded at-or-above-high dwell by one more such check. -/
theorem highDwell_extend (r : AlertRuleParam) (p : List Check) (a : AlertProcessor)
    (c : Check) (hr : a.rule = r) (hc : a.alertCondition = false)
    (hhigh : a.rule.high ≤ c.value)
    (hinv : HighInv r p a) :
    ∃ j, ∃ hj : j < (p ++ [c]).length,
      ((p ++ [c]).get ⟨j, hj⟩).time = a.highThresholdTime.getD c.time ∧
      ∀ k, j ≤ k → ∀ hk : k < (p ++ [c]).length,
        r.high ≤ ((p ++ [c]).get ⟨k, hk⟩).value := by
  rcases hht : a.highThresholdTime with _ | τ0
  · refine ⟨p.length, by simp, ?_, ?_⟩
    · simp [List.get_eq_getElem]
    · intro k hk1 hk2
      have hk : k = p.length := by
        simp only [List.length_append, List.length_cons, List.length_nil] at hk2
        omega
      subst hk
      simp only [List.get_eq_getElem, List.getElem_concat_length]
      rw [← hr]
      exact hhigh
  · obtain ⟨j, hj, hjt, hjv⟩ := hinv τ0 hc hht
    have hj' : j < (p ++ [c]).length := by simp; omega
    refine ⟨j, hj', ?_, ?_⟩
    · simp only [Option.getD_some, List.get_eq_getElem]
      rw [List.getElem_append_left hj]
      simpa [List.get_eq_getElem] using hjt
    · intro k hk1 hk2
      simp only [List.length_append, List.length_cons, List.length_nil] at hk2
      by_cases hkp : k < p.length
      · simp only [List.get_eq_getElem]
        rw [List.getElem_append_left hkp]
        simpa [List.get_eq_getElem] using hjv k hk1 hkp
      · have hk : k = p.length := by omega
        subst hk
        simp only [List.get_eq_getElem, List.getElem_concat_length]
        rw [← hr]
        exact hhigh

theorem highInv_step (r : AlertRuleParam) (p : List Check) (a : AlertProcessor)
    (c : Check) (hr : a.rule = r) (h : HighInv r p a) :
    HighInv r (p ++ [c]) (checkAlertDetection a c.time c.value).1 := by
  unfold checkAlertDetection
  by_cases hc : a.alertCondition = true
  · rw [if_pos hc]
    unfold handleLowThreshold
    split_ifs
    · exact fun τ hco h2 => by simp at h2
    · exact fun τ hco h2 => by simp [hc] at hco
    · exact fun τ hco h2 => by simp [hc] at hco
    · exact fun τ hco h2 => by simp [hc] at hco
    · exact fun τ hco h2 => by simp [hc] at hco
  · rw [if_neg hc]
    have hcf : a.alertCondition = false := by
      revert hc
      cases a.alertCondition <;> simp
    unfold handleHighThreshold
    split_ifs with hhigh hto
    · exact fun τ hco h2 => by simp at hco
    · intro τ hco h2
      simp only [Option.some.injEq] at h2
      rw [← h2]
      exact highDwell_extend r p a c hr hcf hhigh h
    · exact fun τ hco h2 => by simp at h2

theorem highInv_run (r : AlertRuleParam) (p : List Check) :
    HighInv r p (reachedProcessor r p) := by
  induction p using List.reverseRecOn with
  | nil => exact highInv_init r
  | append_singleton xs x ih =>
      unfold reachedProcessor
      rw [runChecks_snoc]
      exact highInv_step r xs (reachedProcessor r xs) x (reachedProcessor_rule r xs) ih

/-- A raise is only ever emitted from the normal state, as the unique event of
its tick, with the current value at or above the high bound and the
high-crossing dwell (from the recorded first crossing tick) at the rule
timeout; it moves the processor to the raised state. -/
theorem raise_step_char (a : AlertProcessor) (t v : Nat) (e : AlertEvent)
    (he : e ∈ (checkAlertDetection a t v).2) (hst : e.status = .raise) :
    a.alertCondition = false ∧ e = ⟨t, v, .raise⟩ ∧
    (checkAlertDetection a t v).2 = [e] ∧
    (checkAlertDetection a t v).1.alertCondition = true ∧
    a.rule.high ≤ v ∧ a.rule.timeout ≤ t - a.highThresholdTime.getD t := by
  unfold checkAlertDetection handleLowThreshold handleHighThreshold at he ⊢
  by_cases hc : a.alertCondition = true
  · rw [if_pos hc] at he ⊢
    split_ifs at he ⊢ <;> simp_all
  · rw [if_neg hc] at he ⊢
    split_ifs at he ⊢ <;> simp_all

/-- Event/state shapes of a single check: silent with unchanged state flag, a
raise from normal to raised, a continue staying raised, or a fall from raised
to normal. -/
theorem step_shape (a : AlertProcessor) (t v : Nat) :
    ((checkAlertDetection a t v).2 = [] ∧
      (checkAlertDetection a t v).1.alertCondition = a.alertCondition) ∨
    ((checkAlertDetection a t v).2 = [⟨t, v, .raise⟩] ∧ a.alertCondition = false ∧
      (checkAlertDetection a t v).1.alertCondition = true) ∨
    ((checkAlertDetection a t v).2 = [⟨t, v, .cont⟩] ∧ a.alertCondition = true ∧
      (checkAlertDetection a t v).1.alertCondition = true) ∨
    ((checkAlertDetection a t v).2 = [⟨t, v, .fall⟩] ∧ a.alertCondition = true ∧
      (checkAlertDetection a t v).1.alertCondition = false) := by
  unfold checkAlertDetection handleLowThreshold handleHighThreshold
  by_cases hc : a.alertCondition = true
  · rw [if_pos hc]
    split_ifs
    · exact Or.inr (Or.inr (Or.inr ⟨rfl, hc, rfl⟩))
    · exact Or.inr (Or.inr (Or.inl ⟨rfl, hc, hc⟩))
    · exact Or.inl ⟨rfl, rfl⟩
    · exact Or.inr (Or.inr (Or.inl ⟨rfl, hc, hc⟩))
    · exact Or.inl ⟨rfl, rfl⟩
  · rw [if_neg hc]
    have hcf : a.alertCondition = false := by
      revert hc
      cases a.alertCondition <;> simp
    split_ifs
    · exact Or.inr (Or.inl ⟨rfl, hcf, rfl⟩)
    · exact Or.inl ⟨rfl, rfl⟩
    · exact Or.inl ⟨rfl, rfl⟩

/-- Checks that raises and falls strictly alternate in a status list, the
argument recording whether a raise (true) or a fall (false) is expected next;
continues are transparent. -/
def raiseFallOk : Bool → List AlertStatus → Bool
  | _, [] => true
  | b, AlertStatus.raise :: rest => b && raiseFallOk false rest
  | b, AlertStatus.fall :: rest => !b && raiseFallOk true rest
  | b, AlertStatus.cont :: rest => raiseFallOk b rest

theorem raiseFall_run (cs : List Check) : ∀ (a : AlertProcessor),
    raiseFallOk (!a.alertCondition) ((runChecks a cs).2.map (fun e => e.status)) = true := by
  induction cs with
  | nil => intro a; rfl
  | cons c cs ih =>
      intro a
      simp only [runChecks, List.map_append]
      rcases step_shape a c.time c.value with ⟨h1, h2⟩ | ⟨h1, h2, h3⟩ | ⟨h1, h2, h3⟩ | ⟨h1, h2, h3⟩
      · rw [h1]
        have h := ih (checkAlertDetection a c.time c.value).1
        rw [h2] at h
        simpa using h
      · rw [h1, h2]
        have h := ih (checkAlertDetection a c.time c.value).1
        rw [h3] at h
        simpa [raiseFallOk] using h
      · rw [h1, h2]
        have h := ih (checkAlertDetection a c.time c.value).1
        rw [h3] at h
        simpa [raiseFallOk] using h
      · rw [h1, h2]
        have h := ih (checkAlertDetection a c.time c.value).1
        rw [h3] at h
        simpa [raiseFallOk] using h

/-- C5: (1) a raise is only emitted, uniquely for its tick, when the value has
remained at or above the high bound from some earlier check tick whose
timestamp is at least the rule's timeout before the current one; (2) over any
check sequence from a fresh processor, raises and falls strictly alternate
starting with a raise, so there is exactly one raise per excursion and no
duplicate raise before the corresponding fall; (3) in the normal state a value
below the high bound produces no callback at all (a pending candidate is
discarded silently); (4) a fall is only emitted at a tick whose value is below
the low bound. -/
theorem C5_thm :
    (∀ (r : AlertRuleParam) (p : List Check) (c : Check),
      ∀ e ∈ (checkAlertDetection (reachedProcessor r p) c.time c.value).2,
        e.status = .raise →
        e = ⟨c.time, c.value, .raise⟩ ∧
        (checkAlertDetection (reachedProcessor r p) c.time c.value).2 = [e] ∧
        ∃ j, ∃ hj : j < (p ++ [c]).length,
          r.timeout ≤ c.time - ((p ++ [c]).get ⟨j, hj⟩).time ∧
          ∀ k, j ≤ k → ∀ hk : k < (p ++ [c]).length,
            r.high ≤ ((p ++ [c]).get ⟨k, hk⟩).value) ∧
    (∀ (r : AlertRuleParam) (cs : List Check),
      raiseFallOk true
        ((runChecks (createAlertProcessor r) cs).2.map (fun e => e.status)) = true) ∧
    (∀ (a : AlertProcessor) (t v : Nat),
      a.alertCondition = false → v < a.rule.high →
        (checkAlertDetection a t v).2 = []) ∧
    (∀ (a : AlertProcessor) (t v : Nat), ∀ e ∈ (checkAlertDetection a t v).2,
      e.status = .fall → v < a.rule.low) := by
  refine ⟨?_, ?_, ?_, ?_⟩
  · intro r p c e he hst
    have hr : (reachedProcessor r p).rule = r := reachedProcessor_rule r p
    obtain ⟨h0, h1, h2, h3, h4, h5⟩ :=
      raise_step_char (reachedProcessor r p) c.time c.value e he hst
    refine ⟨h1, h2, ?_⟩
    obtain ⟨j, hj, hjt, hjv⟩ :=
      highDwell_extend r p (reachedProcessor r p) c hr h0 h4 (highInv_run r p)
    refine ⟨j, hj, ?_, hjv⟩
    rw [hr] at h5
    rw [hjt]
    exact h5
  · intro r cs
    simpa using raiseFall_run cs (createAlertProcessor r)
  · intro a t v hc hv
    unfold checkAlertDetection handleHighThreshold
    rw [hc]
    simp only [Bool.false_eq_true, if_false]
    rw [if_neg (by omega)]
  · intro a t v e he hst
    by_cases hc : a.alertCondition = true
    · exact (fall_step_char a t v hc e he hst).2.2.2.1
    · unfold checkAlertDetection handleHighThreshold at he
      rw [if_neg hc] at he
      split_ifs at he <;> simp_all

/-- C5 witness: applying the raise characterization at the reference
scenario's confirming tick t = 6 (value 95) exhibits the sustained
at-or-above-high dwell behind that raise. -/
theorem C5_witness :
    ∃ j, ∃ hj : j < ((refChecks.take 6) ++ [(⟨6, 95⟩ : Check)]).length,
      refRule.timeout ≤ 6 - (((refChecks.take 6) ++ [(⟨6, 95⟩ : Check)]).get ⟨j, hj⟩).time ∧
      ∀ k, j ≤ k → ∀ hk : k < ((refChecks.take 6) ++ [(⟨6, 95⟩ : Check)]).length,
        refRule.high ≤ (((refChecks.take 6) ++ [(⟨6, 95⟩ : Check)]).get ⟨k, hk⟩).value :=
  (C5_thm.1 refRule (refChecks.take 6) ⟨6, 95⟩ ⟨6, 95, .raise⟩ (by decide) rfl).2.2

/-! ### Monitor orchestrator lifecycle
(src/resourcemonitor/resourcemonitor.go)

The embedding keeps exactly the state the lifecycle claims are about: the
alertProcessors list (container/list), the instanceMonitoringMap, and for each
instance record its uid/gid, partitions, the names of its monitoringData.Disk
entries (standing for the allocated Disk slice), and the recorded
alertProcessorElements.  A processor pushed onto the list is represented by
its construction name and rule; the token field models the identity of the
list element handle returned by PushBack and consumed by Remove, and the owner
field is a ghost tag recording which instance (none for the system processors
pushed by New) performed the push.  The startedRules field is likewise a ghost
copy of the AlertRules an instance was started with, used only to state the
ownership invariant.  Nil collaborators are modelled by Bool/Option flags. -/

structure PartitionParam where
  name : String
  path : String
  deriving DecidableEq, Repr

structure PartitionAlertRuleParam where
  rule : AlertRuleParam
  name : String
  deriving DecidableEq, Repr

structure AlertRules where
  cpu : Option AlertRuleParam
  ram : Option AlertRuleParam
  usedDisks : List PartitionAlertRuleParam
  inTraffic : Option AlertRuleParam
  outTraffic : Option AlertRuleParam
  deriving DecidableEq, Repr

structure ResourceMonitorParams where
  uid : Int
  gid : Int
  alertRules : Option AlertRules
  partitions : List PartitionParam
  deriving DecidableEq, Repr

structure ProcessorEntry where
  token : Nat
  name : String
  rule : AlertRuleParam
  owner : Option String
  deriving DecidableEq, Repr

structure InstanceMonitoring where
  uid : Int
  gid : Int
  partitions : List PartitionParam
  diskNames : List String
  alertProcessorElements : List Nat
  startedRules : Option AlertRules
  deriving DecidableEq, Repr

structure MonitorState where
  alertSenderPresent : Bool
  alertProcessors : List ProcessorEntry
  instanceMonitoringMap : String → Option InstanceMonitoring
  nextToken : Nat

/-- Sequence of PushBack calls onto the alertProcessors list, returning the
handles (tokens) of the pushed elements in push order. -/
def pushProcessors (owner : Option String) :
    MonitorState → List (String × AlertRuleParam) → MonitorState × List Nat
  | st, [] => (st, [])
  | st, nr :: rest =>
      let st1 : MonitorState :=
        { st with
            alertProcessors := st.alertProcessors ++ [⟨st.nextToken, nr.1, nr.2, owner⟩]
            nextToken := st.nextToken + 1 }
      let pushed := pushProcessors owner st1 rest
      (pushed.1, st.nextToken :: pushed.2)

/-- The processors createInstanceMonitoring pushes for a non-nil rules set:
one per non-nil CPU/RAM/InTraffic/OutTraffic rule and one per disk rule whose
name matches one of the instance's monitoringData.Disk entries (the Go code
scans Disk and breaks at the first match). -/
def instanceProcList (instanceID : String) (rules : AlertRules)
    (diskNames : List String) : List (String × AlertRuleParam) :=
  (match rules.cpu with
   | some r => [(instanceID ++ " CPU", r)]
   | none => []) ++
  (match rules.ram with
   | some r => [(instanceID ++ " RAM", r)]
   | none => []) ++
  (rules.usedDisks.filterMap fun dr =>
    if diskNames.contains dr.name then
      some (instanceID ++ " Partition " ++ dr.name, dr.rule)
    else none) ++
  (match rules.inTraffic with
   | some r => [(instanceID ++ " Traffic IN", r)]
   | none => []) ++
  (match rules.outTraffic with
   | some r => [(instanceID ++ " Traffic OUT", r)]
   | none => [])

/-- createInstanceMonitoring: builds the record with uid/gid/partitions; with a
nil alertSender it returns right away (before the Disk slice is allocated and
before any processor is registered); otherwise it sizes monitoringData.Disk
from the partitions, and for a non-nil rules set pushes the implied processors
and records their element handles. -/
def createInstanceMonitoring (st : MonitorState) (instanceID : String)
    (cfg : ResourceMonitorParams) : MonitorState × InstanceMonitoring :=
  let base : InstanceMonitoring :=
    { uid := cfg.uid, gid := cfg.gid, partitions := cfg.partitions
      diskNames := [], alertProcessorElements := [], startedRules := cfg.alertRules }
  if st.alertSenderPresent = false then (st, base)
  else
    let withDisk := { base with diskNames := cfg.partitions.map (fun p => p.name) }
    match cfg.alertRules with
    | none => (st, withDisk)
    | some rules =>
        let pushed := pushProcessors (some instanceID) st
          (instanceProcList instanceID rules withDisk.diskNames)
        (pushed.1, { withDisk with alertProcessorElements := pushed.2 })

/-- StartInstanceMonitor: an already registered instanceID logs a warning and
returns success without mutating state; otherwise the instance record is
created and registered.  The Option String is the returned error (always
none). -/
def StartInstanceMonitor (st : MonitorState) (instanceID : String)
    (monitoringConfig : ResourceMonitorParams) : MonitorState × Option String :=
  match st.instanceMonitoringMap instanceID with
  | some _ => (st, none)
  | none =>
      let created := createInstanceMonitoring st instanceID monitoringConfig
      ({ created.1 with
          instanceMonitoringMap := fun id =>
            if id = instanceID then some created.2
            else created.1.instanceMonitoringMap id },
        none)

/-- StopInstanceMonitor: an unknown instanceID returns success with no effect;
otherwise every recorded alert-processor element of that instance is removed
from the list and the record is deleted. -/
def StopInstanceMonitor (st : MonitorState) (instanceID : String) :
    MonitorState × Option String :=
  match st.instanceMonitoringMap instanceID with
  | none => (st, none)
  | some inst =>
      ({ st with
          alertProcessors := st.alertProcessors.filter
            (fun e => !decide (e.token ∈ inst.alertProcessorElements))
          instanceMonitoringMap := fun id =>
            if id = instanceID then none else st.instanceMonitoringMap id },
        none)

structure PartitionConfig where
  name : String
  types : List String
  path : String
  deriving DecidableEq, Repr

/-- Config for New: the embedded system-level AlertRules plus the monitored
partitions (poll/send periods and the usage source do not affect the lifecycle
claims). -/
structure Config where
  cpu : Option AlertRuleParam
  ram : Option AlertRuleParam
  usedDisks : List PartitionAlertRuleParam
  inTraffic : Option AlertRuleParam
  outTraffic : Option AlertRuleParam
  partitions : List PartitionConfig
  deriving DecidableEq, Repr

/-- The system-level processors New pushes (regardless of the alert sender):
one per non-nil config rule, with disk rules matched against the
nodeMonitoringData.Disk names, which New sizes from config.Partitions. -/
def systemProcList (config : Config) : List (String × AlertRuleParam) :=
  (match config.cpu with
   | some r => [("System CPU", r)]
   | none => []) ++
  (match config.ram with
   | some r => [("System RAM", r)]
   | none => []) ++
  (config.usedDisks.filterMap fun dr =>
    if (config.partitions.map (fun p => p.name)).contains dr.name then
      some ("Partition " ++ dr.name, dr.rule)
    else none) ++
  (match config.inTraffic with
   | some r => [("IN Traffic", r)]
   | none => []) ++
  (match config.outTraffic with
   | some r => [("OUT Traffic", r)]
   | none => [])

/-- Monitor state as built by New: empty instance map and the system
processors. -/
def newMonitorState (config : Config) (alertSenderPresent : Bool) : MonitorState :=
  (pushProcessors none
    { alertSenderPresent := alertSenderPresent, alertProcessors := []
      instanceMonitoringMap := fun _ => none, nextToken := 0 }
    (systemProcList config)).1

/-- Monitor states reachable from New through the lifecycle operations (the
poll and send ticks do not touch the processor list or the instance map
structure). -/
inductive Reachable : MonitorState → Prop where
  | init (config : Config) (sender : Bool) : Reachable (newMonitorState config sender)
  | start (st : MonitorState) (instanceID : String) (cfg : ResourceMonitorParams) :
      Reachable st → Reachable (StartInstanceMonitor st instanceID cfg).1
  | stop (st : MonitorState) (instanceID : String) :
      Reachable st → Reachable (StopInstanceMonitor st instanceID).1

/-- C8: StartInstanceMonitor on an already registered instanceID returns
success (nil error) and leaves the state untouched, and StopInstanceMonitor on
an unknown instanceID returns success with no effect. -/
theorem C8_thm :
    (∀ (st : MonitorState) (instanceID : String) (cfg : ResourceMonitorParams),
      (st.instanceMonitoringMap instanceID).isSome = true →
        StartInstanceMonitor st instanceID cfg = (st, none)) ∧
    (∀ (st : MonitorState) (instanceID : String),
      st.instanceMonitoringMap instanceID = none →
        StopInstanceMonitor st instanceID = (st, none)) := by
  constructor
  · intro st instanceID cfg h
    unfold StartInstanceMonitor
    rcases hm : st.instanceMonitoringMap instanceID with _ | inst
    · rw [hm] at h
      simp at h
    · rfl
  · intro st instanceID h
    unfold StopInstanceMonitor
    rw [h]

/-- Concrete instance record used in lifecycle witnesses. -/
def witnessInstance : InstanceMonitoring :=
  { uid := 1, gid := 1, partitions := [], diskNames := []
    alertProcessorElements := [], startedRules := none }

/-- Concrete monitor state with exactly one registered instance "a". -/
def witnessState : MonitorState :=
  { alertSenderPresent := true, alertProcessors := []
    instanceMonitoringMap := fun id => if id = "a" then some witnessInstance else none
    nextToken := 0 }

/-- C8 witness: restarting the registered "a" and stopping the unknown "b" on
the concrete state both succeed without any effect. -/
theorem C8_witness :
    StartInstanceMonitor witnessState "a"
        { uid := 0, gid := 0, alertRules := none, partitions := [] } =
      (witnessState, none) ∧
    StopInstanceMonitor witnessState "b" = (witnessState, none) :=
  ⟨C8_thm.1 witnessState "a" { uid := 0, gid := 0, alertRules := none, partitions := [] }
      (by simp [witnessState]),
    C8_thm.2 witnessState "b" (by simp [witnessState])⟩

/-- Entries appended by a pushProcessors run starting at a given token. -/
def procEntriesFrom (owner : Option String) :
    Nat → List (String × AlertRuleParam) → List ProcessorEntry
  | _, [] => []
  | tok, nr :: rest => ⟨tok, nr.1, nr.2, owner⟩ :: procEntriesFrom owner (tok + 1) rest

theorem pushProcessors_procs (owner : Option String)
    (l : List (String × AlertRuleParam)) : ∀ st : MonitorState,
    (pushProcessors owner st l).1.alertProcessors =
      st.alertProcessors ++ procEntriesFrom owner st.nextToken l := by
  induction l with
  | nil => intro st; simp [pushProcessors, procEntriesFrom]
  | cons nr rest ih =>
      intro st
      simp only [pushProcessors]
      rw [ih]
      simp [procEntriesFrom, List.append_assoc]

theorem pushProcessors_nextToken (owner : Option String)
    (l : List (String × AlertRuleParam)) : ∀ st : MonitorState,
    (pushProcessors owner st l).1.nextToken = st.nextToken + l.length := by
  induction l with
  | nil => intro st; simp [pushProcessors]
  | cons nr rest ih =>
      intro st
      simp only [pushProcessors]
      rw [ih]
      simp
      omega

theorem pushProcessors_sender (owner : Option String)
    (l : List (String × AlertRuleParam)) : ∀ st : MonitorState,
    (pushProcessors owner st l).1.alertSenderPresent = st.alertSenderPresent := by
  induction l with
  | nil => intro st; rfl
  | cons nr rest ih =>
      intro st
      simp only [pushProcessors]
      rw [ih]

theorem pushProcessors_map (owner : Option String)
    (l : List (String × AlertRuleParam)) : ∀ st : MonitorState,
    (pushProcessors owner st l).1.instanceMonitoringMap = st.instanceMonitoringMap := by
  induction l with
  | nil => intro st; rfl
  | cons nr rest ih =>
      intro st
      simp only [pushProcessors]
      rw [ih]

theorem pushProcessors_toks (owner : Option String)
    (l : List (String × AlertRuleParam)) : ∀ st : MonitorState,
    (pushProcessors owner st l).2 = List.range' st.nextToken l.length := by
  induction l with
  | nil => intro st; rfl
  | cons nr rest ih =>
      intro st
      simp only [pushProcessors]
      rw [ih]
      simp [List.range']

theorem procEntriesFrom_mem (owner : Option String)
    (l : List (String × AlertRuleParam)) : ∀ tok, ∀ e ∈ procEntriesFrom owner tok l,
    tok ≤ e.token ∧ e.token < tok + l.length ∧ e.owner = owner := by
  induction l with
  | nil => intro tok e he; simp [procEntriesFrom] at he
  | cons nr rest ih =>
      intro tok e he
      simp only [procEntriesFrom, List.mem_cons] at he
      rcases he with he | he
      · subst he
        refine ⟨Nat.le_refl _, by simp only [List.length_cons]; omega, rfl⟩
      · obtain ⟨h1, h2, h3⟩ := ih (tok + 1) e he
        refine ⟨by omega, by simp only [List.length_cons]; omega, h3⟩

theorem procEntriesFrom_map_name (owner : Option String)
    (l : List (String × AlertRuleParam)) : ∀ tok,
    (procEntriesFrom owner tok l).map (fun e => e.name) = l.map (fun nr => nr.1) := by
  induction l with
  | nil => intro tok; rfl
  | cons nr rest ih =>
      intro tok
      simp only [procEntriesFrom, List.map_cons]
      rw [ih]

/-- The pushes createInstanceMonitoring performs, as a single list: none with
a nil alertSender or nil rules, the implied processors otherwise. -/
def instancePushList (st : MonitorState) (instanceID : String)
    (cfg : ResourceMonitorParams) : List (String × AlertRuleParam) :=
  if st.alertSenderPresent = false then []
  else
    match cfg.alertRules with
    | none => []
    | some rules =>
        instanceProcList instanceID rules (cfg.partitions.map (fun p => p.name))

theorem createInstanceMonitoring_eq (st : MonitorState) (instanceID : String)
    (cfg : ResourceMonitorParams) :
    createInstanceMonitoring st instanceID cfg =
      ((pushProcessors (some instanceID) st (instancePushList st instanceID cfg)).1,
        { uid := cfg.uid, gid := cfg.gid, partitions := cfg.partitions
          diskNames :=
            if st.alertSenderPresent = false then []
            else cfg.partitions.map (fun p => p.name)
          alertProcessorElements :=
            (pushProcessors (some instanceID) st (instancePushList st instanceID cfg)).2
          startedRules := cfg.alertRules }) := by
  unfold createInstanceMonitoring instancePushList
  by_cases hs : st.alertSenderPresent = false
  · simp only [hs, if_true]
    rfl
  · simp only [hs, if_false]
    rcases hr : cfg.alertRules with _ | rules
    · rfl
    · rfl

theorem StartInstanceMonitor_fresh (st : MonitorState) (instanceID : String)
    (cfg : ResourceMonitorParams) (h : st.instanceMonitoringMap instanceID = none) :
    (StartInstanceMonitor st instanceID cfg).1 =
      { (createInstanceMonitoring st instanceID cfg).1 with
          instanceMonitoringMap := fun id =>
            if id = instanceID then some (createInstanceMonitoring st instanceID cfg).2
            else (createInstanceMonitoring st instanceID cfg).1.instanceMonitoringMap id } := by
  unfold StartInstanceMonitor
  rw [h]

theorem StopInstanceMonitor_known (st : MonitorState) (instanceID : String)
    (inst : InstanceMonitoring) (h : st.instanceMonitoringMap instanceID = some inst) :
    (StopInstanceMonitor st instanceID).1 =
      { st with
          alertProcessors := st.alertProcessors.filter
            (fun e => !decide (e.token ∈ inst.alertProcessorElements))
          instanceMonitoringMap := fun id =>
            if id = instanceID then none else st.instanceMonitoringMap id } := by
  unfold StopInstanceMonitor
  rw [h]

/-- C7: starting a not-yet-registered instance and immediately stopping it
leaves the alert-processor list and the instance registry exactly as they were
(the token-freshness hypothesis states that list element handles are not
reused, which holds in every reachable state). -/
theorem C7_thm :
    ∀ (st : MonitorState) (instanceID : String) (cfg : ResourceMonitorParams),
      (∀ e ∈ st.alertProcessors, e.token < st.nextToken) →
      st.instanceMonitoringMap instanceID = none →
      (StopInstanceMonitor (StartInstanceMonitor st instanceID cfg).1 instanceID).1.alertProcessors
          = st.alertProcessors ∧
      (StopInstanceMonitor (StartInstanceMonitor st instanceID cfg).1 instanceID).1.instanceMonitoringMap
          = st.instanceMonitoringMap := by
  intro st instanceID cfg hfresh hnone
  have hstart := StartInstanceMonitor_fresh st instanceID cfg hnone
  have hmap1 : (StartInstanceMonitor st instanceID cfg).1.instanceMonitoringMap instanceID
      = some (createInstanceMonitoring st instanceID cfg).2 := by
    rw [hstart]
    simp
  have hstop := StopInstanceMonitor_known _ instanceID _ hmap1
  rw [hstop]
  have hprocs1 : (StartInstanceMonitor st instanceID cfg).1.alertProcessors
      = st.alertProcessors ++
        procEntriesFrom (some instanceID) st.nextToken (instancePushList st instanceID cfg) := by
    rw [hstart]
    show (createInstanceMonitoring st instanceID cfg).1.alertProcessors = _
    rw [createInstanceMonitoring_eq]
    exact pushProcessors_procs (some instanceID) _ st
  have helems : (createInstanceMonitoring st instanceID cfg).2.alertProcessorElements
      = List.range' st.nextToken (instancePushList st instanceID cfg).length := by
    rw [createInstanceMonitoring_eq]
    exact pushProcessors_toks (some instanceID) _ st
  constructor
  · show ((StartInstanceMonitor st instanceID cfg).1.alertProcessors.filter _) = _
    rw [hprocs1, helems, List.filter_append]
    have h1 : (st.alertProcessors.filter
        (fun e => !decide (e.token ∈
          List.range' st.nextToken (instancePushList st instanceID cfg).length))) =
        st.alertProcessors := by
      rw [List.filter_eq_self]
      intro e he
      have := hfresh e he
      simp [List.mem_range'_1]
      omega
    have h2 : ((procEntriesFrom (some instanceID) st.nextToken
          (instancePushList st instanceID cfg)).filter
        (fun e => !decide (e.token ∈
          List.range' st.nextToken (instancePushList st instanceID cfg).length))) = [] := by
      rw [List.filter_eq_nil_iff]
      intro e he
      obtain ⟨ha, hb, _⟩ := procEntriesFrom_mem (some instanceID) _ _ e he
      simp [List.mem_range'_1]
      omega
    rw [h1, h2, List.append_nil]
  · funext id
    show (if id = instanceID then none else
        (StartInstanceMonitor st instanceID cfg).1.instanceMonitoringMap id)
      = st.instanceMonitoringMap id
    by_cases hid : id = instanceID
    · subst hid
      simp [hnone]
    · rw [if_neg hid, hstart]
      show (if id = instanceID then some (createInstanceMonitoring st instanceID cfg).2
          else (createInstanceMonitoring st instanceID cfg).1.instanceMonitoringMap id)
        = st.instanceMonitoringMap id
      rw [if_neg hid, createInstanceMonitoring_eq]
      show (pushProcessors (some instanceID) st
          (instancePushList st instanceID cfg)).1.instanceMonitoringMap id
        = st.instanceMonitoringMap id
      rw [pushProcessors_map]

/-- C7 witness: on the concrete one-instance state, starting a fresh "b" with
a CPU rule and stopping it restores both components. -/
theorem C7_witness :
    (StopInstanceMonitor
        (StartInstanceMonitor witnessState "b"
          { uid := 0, gid := 0
            alertRules := some
              { cpu := some { timeout := 0, low := 1, high := 2 }, ram := none
                usedDisks := [], inTraffic := none, outTraffic := none }
            partitions := [] }).1 "b").1.alertProcessors
      = witnessState.alertProcessors ∧
    (StopInstanceMonitor
        (StartInstanceMonitor witnessState "b"
          { uid := 0, gid := 0
            alertRules := some
              { cpu := some { timeout := 0, low := 1, high := 2 }, ram := none
                usedDisks := [], inTraffic := none, outTraffic := none }
            partitions := [] }).1 "b").1.instanceMonitoringMap
      = witnessState.instanceMonitoringMap :=
  C7_thm witnessState "b"
    { uid := 0, gid := 0
      alertRules := some
        { cpu := some { timeout := 0, low := 1, high := 2 }, ram := none
          usedDisks := [], inTraffic := none, outTraffic := none }
      partitions := [] }
    (by intro e he; simp [witnessState] at he)
    (by simp [witnessState])

theorem created_inst_elements (st : MonitorState) (instanceID : String)
    (cfg : ResourceMonitorParams) :
    (createInstanceMonitoring st instanceID cfg).2.alertProcessorElements =
      List.range' st.nextToken (instancePushList st instanceID cfg).length := by
  rw [createInstanceMonitoring_eq]
  exact pushProcessors_toks (some instanceID) _ st

theorem created_inst_rules (st : MonitorState) (instanceID : String)
    (cfg : ResourceMonitorParams) :
    (createInstanceMonitoring st instanceID cfg).2.startedRules = cfg.alertRules := by
  rw [createInstanceMonitoring_eq]

theorem created_inst_diskNames (st : MonitorState) (instanceID : String)
    (cfg : ResourceMonitorParams) :
    (createInstanceMonitoring st instanceID cfg).2.diskNames =
      if st.alertSenderPresent = false then []
      else cfg.partitions.map (fun p => p.name) := by
  rw [createInstanceMonitoring_eq]

theorem start_fresh_procs (st : MonitorState) (instanceID : String)
    (cfg : ResourceMonitorParams) (h : st.instanceMonitoringMap instanceID = none) :
    (StartInstanceMonitor st instanceID cfg).1.alertProcessors =
      st.alertProcessors ++
        procEntriesFrom (some instanceID) st.nextToken (instancePushList st instanceID cfg) := by
  rw [StartInstanceMonitor_fresh st instanceID cfg h]
  show (createInstanceMonitoring st instanceID cfg).1.alertProcessors = _
  rw [createInstanceMonitoring_eq]
  exact pushProcessors_procs (some instanceID) _ st

theorem start_fresh_nextToken (st : MonitorState) (instanceID : String)
    (cfg : ResourceMonitorParams) (h : st.instanceMonitoringMap instanceID = none) :
    (StartInstanceMonitor st instanceID cfg).1.nextToken =
      st.nextToken + (instancePushList st instanceID cfg).length := by
  rw [StartInstanceMonitor_fresh st instanceID cfg h]
  show (createInstanceMonitoring st instanceID cfg).1.nextToken = _
  rw [createInstanceMonitoring_eq]
  exact pushProcessors_nextToken (some instanceID) _ st

theorem start_fresh_sender (st : MonitorState) (instanceID : String)
    (cfg : ResourceMonitorParams) (h : st.instanceMonitoringMap instanceID = none) :
    (StartInstanceMonitor st instanceID cfg).1.alertSenderPresent =
      st.alertSenderPresent := by
  rw [StartInstanceMonitor_fresh st instanceID cfg h]
  show (createInstanceMonitoring st instanceID cfg).1.alertSenderPresent = _
  rw [createInstanceMonitoring_eq]
  exact pushProcessors_sender (some instanceID) _ st

theorem start_fresh_map (st : MonitorState) (instanceID : String)
    (cfg : ResourceMonitorParams) (h : st.instanceMonitoringMap instanceID = none) :
    (StartInstanceMonitor st instanceID cfg).1.instanceMonitoringMap =
      fun id =>
        if id = instanceID then some (createInstanceMonitoring st instanceID cfg).2
        else st.instanceMonitoringMap id := by
  rw [StartInstanceMonitor_fresh st instanceID cfg h]
  show (fun id =>
      if id = instanceID then some (createInstanceMonitoring st instanceID cfg).2
      else (createInstanceMonitoring st instanceID cfg).1.instanceMonitoringMap id) = _
  funext id
  by_cases hid : id = instanceID
  · rw [if_pos hid, if_pos hid]
  · rw [if_neg hid, if_neg hid, createInstanceMonitoring_eq]
    show (pushProcessors (some instanceID) st
        (instancePushList st instanceID cfg)).1.instanceMonitoringMap id = _
    rw [pushProcessors_map]

/-- The alert processors implied for an instance by the rules it was started
with: none when the monitor has no alert sender or the rules are nil, else one
per non-nil sub-rule (disk rules matched against the recorded Disk names). -/
def expectedInstanceProcNames (senderPresent : Bool) (instanceID : String)
    (inst : InstanceMonitoring) : List String :=
  if senderPresent = false then []
  else
    match inst.startedRules with
    | none => []
    | some rules => (instanceProcList instanceID rules inst.diskNames).map (fun nr => nr.1)

/-- Names of the active-list processors recorded as owned by an instance. -/
def ownedProcNames (st : MonitorState) (inst : InstanceMonitoring) : List String :=
  (st.alertProcessors.filter
    (fun e => decide (e.token ∈ inst.alertProcessorElements))).map (fun e => e.name)

theorem instancePushList_names (st : MonitorState) (instanceID : String)
    (cfg : ResourceMonitorParams) :
    (instancePushList st instanceID cfg).map (fun nr => nr.1) =
      expectedInstanceProcNames st.alertSenderPresent instanceID
        (createInstanceMonitoring st instanceID cfg).2 := by
  unfold expectedInstanceProcNames
  rw [created_inst_rules, created_inst_diskNames]
  unfold instancePushList
  by_cases hs : st.alertSenderPresent = false
  · simp [hs]
  · simp only [hs, if_false]
    rcases hr : cfg.alertRules with _ | rules
    · rfl
    · rfl

/-- Structural invariant of the monitor state: list element tokens are below
the freshness counter (also those recorded by instances), a token recorded by
an instance identifies exactly the entries that instance pushed, every live
instance owns exactly the processors its start implied, and every
instance-owned entry's owner is still registered (no orphans). -/
def MonitorInv (st : MonitorState) : Prop :=
  (∀ e ∈ st.alertProcessors, e.token < st.nextToken) ∧
  (∀ id inst, st.instanceMonitoringMap id = some inst →
    ∀ tok ∈ inst.alertProcessorElements, tok < st.nextToken) ∧
  (∀ e ∈ st.alertProcessors, ∀ id inst, st.instanceMonitoringMap id = some inst →
    (e.token ∈ inst.alertProcessorElements ↔ e.owner = some id)) ∧
  (∀ id inst, st.instanceMonitoringMap id = some inst →
    ownedProcNames st inst = expectedInstanceProcNames st.alertSenderPresent id inst) ∧
  (∀ e ∈ st.alertProcessors, ∀ id, e.owner = some id →
    (st.instanceMonitoringMap id).isSome = true)

theorem start_fresh_map_apply (st : MonitorState) (instanceID : String)
    (cfg : ResourceMonitorParams) (h : st.instanceMonitoringMap instanceID = none)
    (id : String) :
    (StartInstanceMonitor st instanceID cfg).1.instanceMonitoringMap id =
      if id = instanceID then some (createInstanceMonitoring st instanceID cfg).2
      else st.instanceMonitoringMap id := by
  rw [start_fresh_map st instanceID cfg h]

theorem monitorInv_new (config : Config) (sender : Bool) :
    MonitorInv (newMonitorState config sender) := by
  have hp := pushProcessors_procs none (systemProcList config)
    { alertSenderPresent := sender, alertProcessors := []
      instanceMonitoringMap := fun _ => none, nextToken := 0 }
  have hn := pushProcessors_nextToken none (systemProcList config)
    { alertSenderPresent := sender, alertProcessors := []
      instanceMonitoringMap := fun _ => none, nextToken := 0 }
  have hmp := pushProcessors_map none (systemProcList config)
    { alertSenderPresent := sender, alertProcessors := []
      instanceMonitoringMap := fun _ => none, nextToken := 0 }
  refine ⟨?_, ?_, ?_, ?_, ?_⟩
  · intro e he
    rw [newMonitorState, hp, List.nil_append] at he
    rw [newMonitorState, hn]
    obtain ⟨_, hb, _⟩ := procEntriesFrom_mem none _ _ e he
    exact hb
  · intro id inst hmap
    rw [newMonitorState, hmp] at hmap
    exact absurd hmap (by simp)
  · intro e he id inst hmap
    rw [newMonitorState, hmp] at hmap
    exact absurd hmap (by simp)
  · intro id inst hmap
    rw [newMonitorState, hmp] at hmap
    exact absurd hmap (by simp)
  · intro e he id hown
    rw [newMonitorState, hp, List.nil_append] at he
    obtain ⟨_, _, hc⟩ := procEntriesFrom_mem none _ _ e he
    rw [hc] at hown
    exact absurd hown (by simp)

theorem monitorInv_start (st : MonitorState) (instanceID : String)
    (cfg : ResourceMonitorParams) (h : MonitorInv st) :
    MonitorInv (StartInstanceMonitor st instanceID cfg).1 := by
  obtain ⟨h1, h2, h3, h4, h5⟩ := h
  rcases hm : st.instanceMonitoringMap instanceID with _ | inst0
  · have hprocs := start_fresh_procs st instanceID cfg hm
    have hnext := start_fresh_nextToken st instanceID cfg hm
    have hsender := start_fresh_sender st instanceID cfg hm
    refine ⟨?_, ?_, ?_, ?_, ?_⟩
    · intro e he
      rw [hprocs] at he
      rw [hnext]
      rcases List.mem_append.mp he with hin | hin
      · exact Nat.lt_of_lt_of_le (h1 e hin) (Nat.le_add_right _ _)
      · obtain ⟨_, hb, _⟩ := procEntriesFrom_mem (some instanceID) _ _ e hin
        exact hb
    · intro id inst' hmap'
      rw [start_fresh_map_apply st instanceID cfg hm id] at hmap'
      rw [hnext]
      by_cases hid : id = instanceID
      · rw [if_pos hid] at hmap'
        injection hmap' with hinj
        subst hinj
        intro tok htok
        rw [created_inst_elements, List.mem_range'_1] at htok
        omega
      · rw [if_neg hid] at hmap'
        intro tok htok
        exact Nat.lt_of_lt_of_le (h2 id inst' hmap' tok htok) (Nat.le_add_right _ _)
    · intro e he id inst' hmap'
      rw [hprocs] at he
      rw [start_fresh_map_apply st instanceID cfg hm id] at hmap'
      rcases List.mem_append.mp he with hin | hin
      · by_cases hid : id = instanceID
        · rw [if_pos hid] at hmap'
          injection hmap' with hinj
          subst hinj
          constructor
          · intro htok
            rw [created_inst_elements, List.mem_range'_1] at htok
            have := h1 e hin
            exact absurd htok.1 (by omega)
          · intro hown
            rw [hid] at hown
            have hlive := h5 e hin instanceID hown
            rw [hm] at hlive
            simp at hlive
        · rw [if_neg hid] at hmap'
          exact h3 e hin id inst' hmap'
      · obtain ⟨ha, hb, hc⟩ := procEntriesFrom_mem (some instanceID) _ _ e hin
        by_cases hid : id = instanceID
        · rw [if_pos hid] at hmap'
          injection hmap' with hinj
          subst hinj
          constructor
          · intro _
            rw [hc, hid]
          · intro _
            rw [created_inst_elements, List.mem_range'_1]
            exact ⟨ha, hb⟩
        · rw [if_neg hid] at hmap'
          constructor
          · intro htok
            have := h2 id inst' hmap' e.token htok
            exact absurd ha (by omega)
          · intro hown
            rw [hc] at hown
            injection hown with hinj
            exact absurd hinj.symm hid
    · intro id inst' hmap'
      rw [start_fresh_map_apply st instanceID cfg hm id] at hmap'
      unfold ownedProcNames
      rw [hprocs, hsender, List.filter_append, List.map_append]
      by_cases hid : id = instanceID
      · rw [if_pos hid] at hmap'
        injection hmap' with hinj
        subst hinj
        rw [hid]
        have hfl : (st.alertProcessors.filter
            (fun e => decide (e.token ∈
              (createInstanceMonitoring st instanceID cfg).2.alertProcessorElements))) = [] := by
          rw [List.filter_eq_nil_iff]
          intro e he2
          have := h1 e he2
          rw [created_inst_elements]
          simp [List.mem_range'_1]
          omega
        have hfr : ((procEntriesFrom (some instanceID) st.nextToken
              (instancePushList st instanceID cfg)).filter
            (fun e => decide (e.token ∈
              (createInstanceMonitoring st instanceID cfg).2.alertProcessorElements))) =
            procEntriesFrom (some instanceID) st.nextToken
              (instancePushList st instanceID cfg) := by
          rw [List.filter_eq_self]
          intro e he2
          obtain ⟨ha, hb, _⟩ := procEntriesFrom_mem (some instanceID) _ _ e he2
          rw [created_inst_elements]
          simp [List.mem_range'_1]
          omega
        rw [hfl, hfr, List.map_nil, List.nil_append, procEntriesFrom_map_name]
        exact instancePushList_names st instanceID cfg
      · rw [if_neg hid] at hmap'
        have hfr0 : ((procEntriesFrom (some instanceID) st.nextToken
              (instancePushList st instanceID cfg)).filter
            (fun e => decide (e.token ∈ inst'.alertProcessorElements))) = [] := by
          rw [List.filter_eq_nil_iff]
          intro e he2
          obtain ⟨ha, _, _⟩ := procEntriesFrom_mem (some instanceID) _ _ e he2
          intro hcontra
          simp only [decide_eq_true_eq] at hcontra
          have := h2 id inst' hmap' e.token hcontra
          omega
        rw [hfr0, List.map_nil, List.append_nil]
        exact h4 id inst' hmap'
    · intro e he id hown
      rw [hprocs] at he
      rw [start_fresh_map_apply st instanceID cfg hm id]
      rcases List.mem_append.mp he with hin | hin
      · by_cases hid : id = instanceID
        · rw [if_pos hid]
          rfl
        · rw [if_neg hid]
          exact h5 e hin id hown
      · obtain ⟨_, _, hc⟩ := procEntriesFrom_mem (some instanceID) _ _ e hin
        rw [hc] at hown
        injection hown with hinj
        rw [if_pos hinj.symm]
        rfl
  · have hsame : (StartInstanceMonitor st instanceID cfg).1 = st := by
      unfold StartInstanceMonitor
      rw [hm]
    rw [hsame]
    exact ⟨h1, h2, h3, h4, h5⟩

theorem monitorInv_stop (st : MonitorState) (instanceID : String) (h : MonitorInv st) :
    MonitorInv (StopInstanceMonitor st instanceID).1 := by
  obtain ⟨h1, h2, h3, h4, h5⟩ := h
  rcases hm : st.instanceMonitoringMap instanceID with _ | inst
  · have hsame : (StopInstanceMonitor st instanceID).1 = st := by
      unfold StopInstanceMonitor
      rw [hm]
    rw [hsame]
    exact ⟨h1, h2, h3, h4, h5⟩
  · rw [StopInstanceMonitor_known st instanceID inst hm]
    refine ⟨?_, ?_, ?_, ?_, ?_⟩
    · intro e he
      have he2 : e ∈ st.alertProcessors.filter
          (fun e => !decide (e.token ∈ inst.alertProcessorElements)) := he
      exact h1 e (List.mem_filter.mp he2).1
    · intro id inst' hmap'
      have hmap2 : (if id = instanceID then none else st.instanceMonitoringMap id)
          = some inst' := hmap'
      by_cases hid : id = instanceID
      · rw [if_pos hid] at hmap2
        exact absurd hmap2 (by simp)
      · rw [if_neg hid] at hmap2
        exact h2 id inst' hmap2
    · intro e he id inst' hmap'
      have he2 : e ∈ st.alertProcessors.filter
          (fun e => !decide (e.token ∈ inst.alertProcessorElements)) := he
      have hmap2 : (if id = instanceID then none else st.instanceMonitoringMap id)
          = some inst' := hmap'
      by_cases hid : id = instanceID
      · rw [if_pos hid] at hmap2
        exact absurd hmap2 (by simp)
      · rw [if_neg hid] at hmap2
        exact h3 e (List.mem_filter.mp he2).1 id inst' hmap2
    · intro id inst' hmap'
      have hmap2 : (if id = instanceID then none else st.instanceMonitoringMap id)
          = some inst' := hmap'
      by_cases hid : id = instanceID
      · rw [if_pos hid] at hmap2
        exact absurd hmap2 (by simp)
      · rw [if_neg hid] at hmap2
        show ((st.alertProcessors.filter
              (fun e => !decide (e.token ∈ inst.alertProcessorElements))).filter
            (fun e => decide (e.token ∈ inst'.alertProcessorElements))).map (fun e => e.name)
          = expectedInstanceProcNames st.alertSenderPresent id inst'
        rw [List.filter_filter]
        have hcong : ∀ x ∈ st.alertProcessors,
            (decide (x.token ∈ inst'.alertProcessorElements) &&
              !decide (x.token ∈ inst.alertProcessorElements))
            = decide (x.token ∈ inst'.alertProcessorElements) := by
          intro x hx
          by_cases hxm : x.token ∈ inst'.alertProcessorElements
          · have hxo := (h3 x hx id inst' hmap2).mp hxm
            have hxnot : x.token ∉ inst.alertProcessorElements := by
              intro hcon
              have hxo2 := (h3 x hx instanceID inst hm).mp hcon
              rw [hxo] at hxo2
              injection hxo2 with hinj
              exact hid hinj
            simp [hxm, hxnot]
          · simp [hxm]
        rw [List.filter_congr hcong]
        exact h4 id inst' hmap2
    · intro e he id hown
      have he2 : e ∈ st.alertProcessors.filter
          (fun e => !decide (e.token ∈ inst.alertProcessorElements)) := he
      obtain ⟨hein, hpred⟩ := List.mem_filter.mp he2
      show (if id = instanceID then none else st.instanceMonitoringMap id).isSome = true
      by_cases hid : id = instanceID
      · subst hid
        have hintok := (h3 e hein id inst hm).mpr hown
        simp only [Bool.not_eq_true', decide_eq_false_iff_not] at hpred
        exact absurd hintok hpred
      · rw [if_neg hid]
        exact h5 e hein id hown

theorem monitorInv_reachable : ∀ st : MonitorState, Reachable st → MonitorInv st := by
  intro st h
  induction h with
  | init config sender => exact monitorInv_new config sender
  | start st instanceID cfg _ ih => exact monitorInv_start st instanceID cfg ih
  | stop st instanceID _ ih => exact monitorInv_stop st instanceID ih

/-- Rules set with only RAM populated. -/
def c9Rules : AlertRules :=
  { cpu := none, ram := some { timeout := 3, low := 80, high := 90 }
    usedDisks := [], inTraffic := none, outTraffic := none }

def c9Params : ResourceMonitorParams :=
  { uid := 0, gid := 0, alertRules := some c9Rules, partitions := [] }

/-- Empty system configuration (no system rules, no partitions). -/
def c9Config : Config :=
  { cpu := none, ram := none, usedDisks := [], inTraffic := none
    outTraffic := none, partitions := [] }

/-- Reachable state: monitor constructed with a nil AlertSender, then one
instance started with the RAM-only rules. -/
def c9NilSenderState : MonitorState :=
  (StartInstanceMonitor (newMonitorState c9Config false) "i" c9Params).1

/-- C9 counterexample: in the reachable state where the monitor was built with
a nil AlertSender and instance "i" was started with a rules set having only
RAM populated, the instance owns zero alert processors, not exactly one. -/
theorem C9_counterexample :
    Reachable c9NilSenderState ∧
    (Option.map (fun inst => (ownedProcNames c9NilSenderState inst).length)
      (c9NilSenderState.instanceMonitoringMap "i")) = some 0 ∧
    (Option.map (fun inst => inst.startedRules)
      (c9NilSenderState.instanceMonitoringMap "i")) = some (some c9Rules) ∧
    (0 : Nat) ≠ 1 := by
  refine ⟨Reachable.start _ _ _ (Reachable.init c9Config false), ?_, ?_, by decide⟩
  · decide
  · decide

/-- C9 amended: in every reachable monitor state, every live registered
instance owns exactly the alert processors implied by the rules it was started
with given the monitor's alert sender — one per non-nil rule (CPU, RAM, one
per disk rule matching one of its partitions, in/out traffic) when the monitor
has a non-nil AlertSender, and none at all when the AlertSender is nil — and
no orphaned instance-owned processor remains in the active list (its owner is
always still registered). -/
theorem C9_amended_thm :
    ∀ st : MonitorState, Reachable st →
      (∀ id inst, st.instanceMonitoringMap id = some inst →
        ownedProcNames st inst =
          expectedInstanceProcNames st.alertSenderPresent id inst) ∧
      (∀ e ∈ st.alertProcessors, ∀ id, e.owner = some id →
        (st.instanceMonitoringMap id).isSome = true) := by
  intro st h
  obtain ⟨_, _, _, h4, h5⟩ := monitorInv_reachable st h
  exact ⟨h4, h5⟩

/-- Reachable state: monitor with a live alert sender, one instance started
with the RAM-only rules. -/
def c9SenderState : MonitorState :=
  (StartInstanceMonitor (newMonitorState c9Config true) "i" c9Params).1

def c9Inst : InstanceMonitoring :=
  (createInstanceMonitoring (newMonitorState c9Config true) "i" c9Params).2

/-- C9 witness: with a live alert sender, the RAM-only instance owns exactly
the implied processors, namely the single RAM one. -/
theorem C9_witness :
    ownedProcNames c9SenderState c9Inst =
      expectedInstanceProcNames c9SenderState.alertSenderPresent "i" c9Inst ∧
    ownedProcNames c9SenderState c9Inst = ["i RAM"] :=
  ⟨(C9_amended_thm c9SenderState
      (Reachable.start _ _ _ (Reachable.init c9Config true))).1 "i" c9Inst (by decide),
    by decide⟩

/-- The poll tick (getCurrentInstanceData) writes monitoringData.Disk[i] for
every index i of the instance's partitions list; those writes are in bounds
exactly when the Disk slice is at least as long as the partitions list. -/
def instanceDiskWritesInBounds (inst : InstanceMonitoring) : Prop :=
  inst.partitions.length ≤ inst.diskNames.length

def c10Params : ResourceMonitorParams :=
  { uid := 0, gid := 0, alertRules := none
    partitions := [{ name := "services", path := "/p" }] }

/-- C10: with a non-nil AlertSender, createInstanceMonitoring sizes the
instance's Disk slice with exactly one element per entry of params.Partitions;
but with a nil AlertSender it returns before allocating the Disk slice, so an
instance started with one partition has an empty Disk slice and the poll
tick's per-partition write Disk[0].UsedSize is out of bounds (a panic in Go).
The general equation makes both halves explicit at once. -/
theorem C10_thm :
    (∀ (st : MonitorState) (instanceID : String) (cfg : ResourceMonitorParams),
      (createInstanceMonitoring st instanceID cfg).2.diskNames.length =
        if st.alertSenderPresent = false then 0 else cfg.partitions.length) ∧
    (createInstanceMonitoring (newMonitorState c9Config false) "i" c10Params).2.partitions.length
      = 1 ∧
    ¬instanceDiskWritesInBounds
      (createInstanceMonitoring (newMonitorState c9Config false) "i" c10Params).2 := by
  refine ⟨?_, by decide, by unfold instanceDiskWritesInBounds; decide⟩
  intro st instanceID cfg
  rw [created_inst_diskNames]
  by_cases hs : st.alertSenderPresent = false
  · rw [if_pos hs, if_pos hs]
    rfl
  · rw [if_neg hs, if_neg hs]
    exact List.length_map _ _

/-! ### Per-tick system sampling and its error handling
(getCurrentSystemData, src/resourcemonitor/resourcemonitor.go lines 532-571)

The Go helpers getSystemCPUUsage / getSystemRAMUsage / getSystemDiskUsage
return the zero value together with a non-nil error (their early returns), and
getCurrentSystemData assigns the returned value to the metric field
unconditionally, logging the error.  A fetch outcome is therefore an Except
whose error case stands for (0, err).  CPU float rounding
(uint64(math.Round(cpu))) is absorbed into the fetched number.  The traffic
collaborator returns a pair of values together with an optional error and may
be absent (nil trafficMonitoring), in which case the traffic fields are left
untouched. -/

def fetchValue : Except String Nat → Nat
  | .ok v => v
  | .error _ => 0

def fetchLog : Except String Nat → List String
  | .ok _ => []
  | .error e => [e]

structure PartitionUsage where
  name : String
  usedSize : Nat
  deriving DecidableEq, Repr

structure MonitoringData where
  cpu : Nat
  ram : Nat
  disk : List PartitionUsage
  inTraffic : Nat
  outTraffic : Nat
  deriving DecidableEq, Repr

structure SystemFetch where
  cpuUsage : Except String Nat
  ramUsage : Except String Nat
  diskUsage : List (Except String Nat)
  systemTraffic : Option ((Nat × Nat) × Option String)
  deriving Repr

/-- The per-partition loop: Disk[i].UsedSize is assigned the outcome of
getSystemDiskUsage for config partition i (zero on error, which is logged). -/
def updateDiskUsage : List PartitionUsage → List (Except String Nat) →
    List PartitionUsage × List String
  | disks, [] => (disks, [])
  | [], _ => ([], [])
  | d :: ds, r :: rs =>
      let rest := updateDiskUsage ds rs
      ({ d with usedSize := fetchValue r } :: rest.1, fetchLog r ++ rest.2)

def getCurrentSystemData (md : MonitoringData) (f : SystemFetch) :
    MonitoringData × List String :=
  let md1 := { md with cpu := fetchValue f.cpuUsage }
  let md2 := { md1 with ram := fetchValue f.ramUsage }
  let dres :=
    if md2.disk.length > 0 then updateDiskUsage md2.disk f.diskUsage
    else (md2.disk, [])
  let md3 := { md2 with disk := dres.1 }
  match f.systemTraffic with
  | none => (md3, fetchLog f.cpuUsage ++ fetchLog f.ramUsage ++ dres.2)
  | some tr =>
      ({ md3 with inTraffic := tr.1.1, outTraffic := tr.1.2 },
        fetchLog f.cpuUsage ++ fetchLog f.ramUsage ++ dres.2 ++ tr.2.toList)

def c1Prev : MonitoringData :=
  { cpu := 42, ram := 7, disk := [{ name := "generic", usedSize := 5 }]
    inTraffic := 1, outTraffic := 2 }

def c1Fetch : SystemFetch :=
  { cpuUsage := .error "cpu fail", ramUsage := .ok 9, diskUsage := [.ok 11]
    systemTraffic := some ((3, 4), none) }

/-- C1 counterexample: with the previous tick's CPU at 42 and the CPU fetch
failing, the tick logs the error and continues with the remaining metrics, but
the CPU field is overwritten with the 0 returned alongside the error instead
of keeping its previous value 42. -/
theorem C1_counterexample :
    (getCurrentSystemData c1Prev c1Fetch).1.cpu = 0 ∧
    c1Prev.cpu = 42 ∧
    (getCurrentSystemData c1Prev c1Fetch).1.cpu ≠ c1Prev.cpu ∧
    "cpu fail" ∈ (getCurrentSystemData c1Prev c1Fetch).2 ∧
    (getCurrentSystemData c1Prev c1Fetch).1.ram = 9 ∧
    (getCurrentSystemData c1Prev c1Fetch).1.disk = [{ name := "generic", usedSize := 11 }] ∧
    (getCurrentSystemData c1Prev c1Fetch).1.inTraffic = 3 ∧
    (getCurrentSystemData c1Prev c1Fetch).1.outTraffic = 4 := by
  decide

theorem updateDiskUsage_length (disks : List PartitionUsage) :
    ∀ rs : List (Except String Nat), (updateDiskUsage disks rs).1.length = disks.length := by
  induction disks with
  | nil => intro rs; cases rs <;> rfl
  | cons d ds ih =>
      intro rs
      cases rs with
      | nil => rfl
      | cons r rs' => simp [updateDiskUsage, ih rs']

theorem updateDiskUsage_getElem (disks : List PartitionUsage) :
    ∀ (rs : List (Except String Nat)) (i : Nat),
      (updateDiskUsage disks rs).1[i]? =
        disks[i]?.map (fun d =>
          match rs[i]? with
          | some r => { d with usedSize := fetchValue r }
          | none => d) := by
  induction disks with
  | nil => intro rs i; cases rs <;> simp [updateDiskUsage]
  | cons d ds ih =>
      intro rs i
      cases rs with
      | nil => cases i <;> simp [updateDiskUsage]
      | cons r rs' =>
          cases i with
          | zero => simp [updateDiskUsage]
          | succ n => simp [updateDiskUsage, ih rs' n]

theorem updateDiskUsage_log_mem (disks : List PartitionUsage) :
    ∀ (rs : List (Except String Nat)) (i : Nat) (e : String),
      i < disks.length → rs[i]? = some (.error e) →
      e ∈ (updateDiskUsage disks rs).2 := by
  induction disks with
  | nil => intro rs i e hi _; simp at hi
  | cons d ds ih =>
      intro rs i e hi hr
      cases rs with
      | nil => simp at hr
      | cons r rs' =>
          cases i with
          | zero =>
              simp only [List.getElem?_cons_zero, Option.some.injEq] at hr
              subst hr
              show e ∈ fetchLog (.error e) ++ (updateDiskUsage ds rs').2
              simp [fetchLog]
          | succ n =>
              simp only [List.getElem?_cons_succ] at hr
              have hmem := ih rs' n e (by simpa using hi) hr
              show e ∈ fetchLog r ++ (updateDiskUsage ds rs').2
              exact List.mem_append.mpr (Or.inr hmem)

/-- C1 amended: a failing fetch of any individual metric is logged and does
not abort the tick — every other metric is updated exactly as it would have
been — but the failed metric's field does not keep its previous value.  A CPU
failure sets CPU to the 0 returned with the error; a RAM failure sets RAM to
0; a failure of partition i's usage lookup sets that partition's UsedSize to 0
while every other partition entry is updated as with a successful fetch; and a
failing traffic call overwrites both traffic fields with whatever pair the
collaborator returned alongside the error. -/
theorem C1_amended_thm :
    ∀ (md : MonitoringData) (f : SystemFetch) (e : String),
      ((getCurrentSystemData md { f with cpuUsage := .error e }).1.cpu = 0 ∧
        e ∈ (getCurrentSystemData md { f with cpuUsage := .error e }).2 ∧
        (getCurrentSystemData md { f with cpuUsage := .error e }).1.ram
          = (getCurrentSystemData md f).1.ram ∧
        (getCurrentSystemData md { f with cpuUsage := .error e }).1.disk
          = (getCurrentSystemData md f).1.disk ∧
        (getCurrentSystemData md { f with cpuUsage := .error e }).1.inTraffic
          = (getCurrentSystemData md f).1.inTraffic ∧
        (getCurrentSystemData md { f with cpuUsage := .error e }).1.outTraffic
          = (getCurrentSystemData md f).1.outTraffic) ∧
      ((getCurrentSystemData md { f with ramUsage := .error e }).1.ram = 0 ∧
        e ∈ (getCurrentSystemData md { f with ramUsage := .error e }).2 ∧
        (getCurrentSystemData md { f with ramUsage := .error e }).1.cpu
          = (getCurrentSystemData md f).1.cpu ∧
        (getCurrentSystemData md { f with ramUsage := .error e }).1.disk
          = (getCurrentSystemData md f).1.disk ∧
        (getCurrentSystemData md { f with ramUsage := .error e }).1.inTraffic
          = (getCurrentSystemData md f).1.inTraffic ∧
        (getCurrentSystemData md { f with ramUsage := .error e }).1.outTraffic
          = (getCurrentSystemData md f).1.outTraffic) ∧
      (∀ i : Nat, i < md.disk.length → i < f.diskUsage.length →
        e ∈ (getCurrentSystemData md
            { f with diskUsage := f.diskUsage.set i (.error e) }).2 ∧
        (getCurrentSystemData md
            { f with diskUsage := f.diskUsage.set i (.error e) }).1.disk[i]?
          = md.disk[i]?.map (fun d => { d with usedSize := 0 }) ∧
        (∀ j : Nat, j ≠ i →
          (getCurrentSystemData md
              { f with diskUsage := f.diskUsage.set i (.error e) }).1.disk[j]?
            = (getCurrentSystemData md f).1.disk[j]?) ∧
        (getCurrentSystemData md
            { f with diskUsage := f.diskUsage.set i (.error e) }).1.disk.length
          = md.disk.length ∧
        (getCurrentSystemData md
            { f with diskUsage := f.diskUsage.set i (.error e) }).1.cpu
          = (getCurrentSystemData md f).1.cpu ∧
        (getCurrentSystemData md
            { f with diskUsage := f.diskUsage.set i (.error e) }).1.ram
          = (getCurrentSystemData md f).1.ram ∧
        (getCurrentSystemData md
            { f with diskUsage := f.diskUsage.set i (.error e) }).1.inTraffic
          = (getCurrentSystemData md f).1.inTraffic ∧
        (getCurrentSystemData md
            { f with diskUsage := f.diskUsage.set i (.error e) }).1.outTraffic
          = (getCurrentSystemData md f).1.outTraffic) ∧
      (∀ a b : Nat,
        (getCurrentSystemData md
            { f with systemTraffic := some ((a, b), some e) }).1.inTraffic = a ∧
        (getCurrentSystemData md
            { f with systemTraffic := some ((a, b), some e) }).1.outTraffic = b ∧
        e ∈ (getCurrentSystemData md
            { f with systemTraffic := some ((a, b), some e) }).2 ∧
        (getCurrentSystemData md
            { f with systemTraffic := some ((a, b), some e) }).1.cpu
          = (getCurrentSystemData md
              { f with systemTraffic := some ((a, b), none) }).1.cpu ∧
        (getCurrentSystemData md
            { f with systemTraffic := some ((a, b), some e) }).1.ram
          = (getCurrentSystemData md
              { f with systemTraffic := some ((a, b), none) }).1.ram ∧
        (getCurrentSystemData md
            { f with systemTraffic := some ((a, b), some e) }).1.disk
          = (getCurrentSystemData md
              { f with systemTraffic := some ((a, b), none) }).1.disk) := by
  intro md f e
  refine ⟨?_, ?_, ?_, ?_⟩
  · rcases htr : f.systemTraffic with _ | tr <;>
      simp [getCurrentSystemData, htr, fetchValue, fetchLog]
  · rcases htr : f.systemTraffic with _ | tr <;>
      simp [getCurrentSystemData, htr, fetchValue, fetchLog]
  · intro i hi hri
    have hpos : md.disk.length > 0 := by omega
    have hset : (f.diskUsage.set i (Except.error e))[i]? = some (Except.error e) :=
      List.getElem?_set_self hri
    have hmem := updateDiskUsage_log_mem md.disk
      (f.diskUsage.set i (Except.error e)) i e hi hset
    refine ⟨?_, ?_, ?_, ?_, ?_, ?_, ?_, ?_⟩
    · rcases htr : f.systemTraffic with _ | tr <;>
        simp only [getCurrentSystemData, htr, if_pos hpos] <;>
        simp [List.mem_append, hmem]
    · rcases htr : f.systemTraffic with _ | tr <;>
        simp only [getCurrentSystemData, htr, if_pos hpos] <;>
        rw [updateDiskUsage_getElem, hset] <;>
        simp [fetchValue]
    · intro j hj
      have hij : (f.diskUsage.set i (Except.error e))[j]? = f.diskUsage[j]? :=
        List.getElem?_set_ne (fun h => hj h.symm)
      rcases htr : f.systemTraffic with _ | tr <;>
        simp only [getCurrentSystemData, htr, if_pos hpos] <;>
        rw [updateDiskUsage_getElem, updateDiskUsage_getElem, hij]
    · rcases htr : f.systemTraffic with _ | tr <;>
        simp only [getCurrentSystemData, htr, if_pos hpos] <;>
        rw [updateDiskUsage_length]
    · rcases htr : f.systemTraffic with _ | tr <;>
        simp [getCurrentSystemData, htr]
    · rcases htr : f.systemTraffic with _ | tr <;>
        simp [getCurrentSystemData, htr]
    · rcases htr : f.systemTraffic with _ | tr <;>
        simp [getCurrentSystemData, htr]
    · rcases htr : f.systemTraffic with _ | tr <;>
        simp [getCurrentSystemData, htr]
  · intro a b
    refine ⟨?_, ?_, ?_, ?_, ?_, ?_⟩ <;>
      simp [getCurrentSystemData, fetchValue, fetchLog]

/-- All-successful fetch outcomes used by the C1 witness. -/
def c1FetchOk : SystemFetch :=
  { cpuUsage := .ok 8, ramUsage := .ok 9, diskUsage := [.ok 11]
    systemTraffic := some ((3, 4), none) }

/-- C1 witness: applying the amended characterization to a concrete failing
disk fetch at partition 0 — the error is logged and the partition's UsedSize
is overwritten with 0. -/
theorem C1_witness :
    "disk fail" ∈ (getCurrentSystemData c1Prev
      { c1FetchOk with diskUsage := c1FetchOk.diskUsage.set 0 (.error "disk fail") }).2 ∧
    (getCurrentSystemData c1Prev
        { c1FetchOk with diskUsage := c1FetchOk.diskUsage.set 0 (.error "disk fail") }).1.disk[0]?
      = some { name := "generic", usedSize := 0 } := by
  have h := (C1_amended_thm c1Prev c1FetchOk "disk fail").2.2.1 0 (by decide) (by decide)
  refine ⟨h.1, ?_⟩
  rw [h.2.1]
  rfl

/-! ### Averaging window

Modelled from the spec: the averaging implementation behind
GetAverageMonitoring / GetAverage (average.go) is not among the sources; only
the spec (section 4.2) and the averaging tests
(resourcemonitor_internal_test.go, TestSystemAveraging / TestInstanceAveraging)
describe it.  Two models are given.  specAverage / runWindowSpec follows the
spec's words: per entity a time-ordered sample list, each new sample appended
and entries older than now − retention evicted, the average being the
arithmetic mean over the retained samples, with a "no data" error when none
are retained.  updateAverage / runAverage follows the in-src tests: a
per-field accumulator with window size w = retention / pollPeriod that sums
the first w samples exactly and afterwards decays (sum := sum − sum/w +
value), the average being sum / count; the tests' expected values (e.g.
download averages 100, 150, 200, 300) are reproduced by this accumulator and
not by the spec's words.  Values are exact rationals; one accumulator stands
for one numeric field of the monitoring data. -/

structure TimedSample where
  time : Nat
  value : ℚ
  deriving DecidableEq, Repr

def evictOld (retention now : Nat) (window : List TimedSample) : List TimedSample :=
  window.filter (fun s => decide (now - retention ≤ s.time))

def addSampleSpec (retention : Nat) (window : List TimedSample) (s : TimedSample) :
    List TimedSample :=
  evictOld retention s.time (window ++ [s])

def runWindowSpec (retention : Nat) (samples : List TimedSample) : List TimedSample :=
  samples.foldl (addSampleSpec retention) []

def specAverage (window : List TimedSample) : Except String ℚ :=
  match window with
  | [] => .error "no data"
  | _ :: _ => .ok ((window.map (fun s => s.value)).sum / (window.length : ℚ))

structure AverageCalc where
  sum : ℚ
  count : Nat
  windowSize : Nat
  deriving DecidableEq, Repr

def updateAverage (c : AverageCalc) (v : ℚ) : AverageCalc :=
  if c.count < c.windowSize then
    { c with sum := c.sum + v, count := c.count + 1 }
  else
    { c with sum := c.sum - c.sum / (c.windowSize : ℚ) + v }

def averageValue (c : AverageCalc) : Except String ℚ :=
  if c.count = 0 then .error "no data"
  else .ok (c.sum / (c.count : ℚ))

def runAverage (windowSize : Nat) (values : List ℚ) : AverageCalc :=
  values.foldl updateAverage { sum := 0, count := 0, windowSize := windowSize }

/-- C6 counterexample: for the system-averaging test's download series
(samples 100, 200, 300, 500 at poll times 0, 100, 200, 300 ms, window 300 ms =
3 polls), the accumulator model reproduces the averages the in-src test
expects (100, 150, 200 and finally 300), while the spec's
append-evict-arithmetic-mean window yields 275 after the fourth sample;
moreover no trailing portion of the history containing the newest sample has
arithmetic mean 300 (the suffix means are 500, 400, 1000/3 and 275), so no
timestamp-eviction outcome whatsoever reproduces the test's expected value. -/
theorem C6_counterexample :
    averageValue (runAverage 3 [100]) = .ok 100 ∧
    averageValue (runAverage 3 [100, 200]) = .ok 150 ∧
    averageValue (runAverage 3 [100, 200, 300]) = .ok 200 ∧
    averageValue (runAverage 3 [100, 200, 300, 500]) = .ok 300 ∧
    specAverage (runWindowSpec 300
      [⟨0, 100⟩, ⟨100, 200⟩, ⟨200, 300⟩, ⟨300, 500⟩]) = .ok 275 ∧
    specAverage [⟨300, 500⟩] = .ok 500 ∧
    specAverage [⟨200, 300⟩, ⟨300, 500⟩] = .ok 400 ∧
    specAverage [⟨100, 200⟩, ⟨200, 300⟩, ⟨300, 500⟩] = .ok (1000 / 3) ∧
    specAverage [⟨0, 100⟩, ⟨100, 200⟩, ⟨200, 300⟩, ⟨300, 500⟩] = .ok 275 ∧
    (500 : ℚ) ≠ 300 ∧ (400 : ℚ) ≠ 300 ∧ (1000 / 3 : ℚ) ≠ 300 ∧ (275 : ℚ) ≠ 300 := by
  refine ⟨?_, ?_, ?_, ?_, ?_, ?_, ?_, ?_, ?_, by norm_num, by norm_num, by norm_num,
    by norm_num⟩ <;>
    norm_num [runAverage, updateAverage, averageValue, specAverage, runWindowSpec,
      addSampleSpec, evictOld]

theorem runAverage_windowSize (windowSize : Nat) (values : List ℚ) :
    (runAverage windowSize values).windowSize = windowSize := by
  induction values using List.reverseRecOn with
  | nil => rfl
  | append_singleton xs x ih =>
      unfold runAverage at ih ⊢
      rw [List.foldl_append]
      show (updateAverage _ x).windowSize = windowSize
      unfold updateAverage
      split_ifs <;> exact ih

theorem runAverage_partial (windowSize : Nat) (values : List ℚ)
    (h : values.length ≤ windowSize) :
    (runAverage windowSize values).count = values.length ∧
    (runAverage windowSize values).sum = values.sum := by
  induction values using List.reverseRecOn with
  | nil => exact ⟨rfl, rfl⟩
  | append_singleton xs x ih =>
      have hxs : xs.length ≤ windowSize := by
        simp only [List.length_append, List.length_cons, List.length_nil] at h
        omega
      obtain ⟨hc, hs⟩ := ih hxs
      have hws := runAverage_windowSize windowSize xs
      have hstep : runAverage windowSize (xs ++ [x]) =
          updateAverage (runAverage windowSize xs) x := by
        unfold runAverage
        rw [List.foldl_append]
        rfl
      have hlt : (runAverage windowSize xs).count < (runAverage windowSize xs).windowSize := by
        rw [hc, hws]
        simp only [List.length_append, List.length_cons, List.length_nil] at h
        omega
      rw [hstep]
      unfold updateAverage
      rw [if_pos hlt]
      constructor
      · show (runAverage windowSize xs).count + 1 = (xs ++ [x]).length
        rw [hc]
        simp
      · show (runAverage windowSize xs).sum + x = (xs ++ [x]).sum
        rw [hs]
        simp

/-- C6 amended: the window is a per-field running average, not a
timestamp-evicted mean.  While at most windowSize = retention/pollPeriod
samples have been fed, the accumulator holds their exact sum and count, so the
average equals the arithmetic mean of all samples so far; with no samples it
returns the distinguishable "no data" error, never a zero-filled value; and
once the window is full each new sample decays the sum (sum − sum/windowSize +
value) with the count pinned, as the in-src averaging tests require. -/
theorem C6_amended_thm :
    (∀ (windowSize : Nat) (values : List ℚ), values.length ≤ windowSize →
      averageValue (runAverage windowSize values) =
        match values with
        | [] => .error "no data"
        | _ :: _ => .ok (values.sum / (values.length : ℚ))) ∧
    (∀ (c : AverageCalc) (v : ℚ), ¬c.count < c.windowSize →
      (updateAverage c v).sum = c.sum - c.sum / (c.windowSize : ℚ) + v ∧
      (updateAverage c v).count = c.count) := by
  constructor
  · intro windowSize values h
    obtain ⟨hc, hs⟩ := runAverage_partial windowSize values h
    cases values with
    | nil => rfl
    | cons a l =>
        unfold averageValue
        rw [hc, hs]
        rw [if_neg (by simp)]
  · intro c v hge
    unfold updateAverage
    rw [if_neg hge]
    exact ⟨rfl, rfl⟩

/-- C6 witness: the amended mean property applied at the test's first three
download samples with window size 3, and the decay step applied at the full
accumulator the third sample leaves behind. -/
theorem C6_witness :
    averageValue (runAverage 3 [100, 200, 300]) =
      .ok (([100, 200, 300] : List ℚ).sum / (([100, 200, 300] : List ℚ).length : ℚ)) ∧
    (updateAverage { sum := 600, count := 3, windowSize := 3 } 500).sum
      = 600 - 600 / (3 : ℚ) + 500 :=
  ⟨C6_amended_thm.1 3 [100, 200, 300] (by decide),
    (C6_amended_thm.2 { sum := 600, count := 3, windowSize := 3 } 500 (by decide)).1⟩

end AosResourceMonitor
